import Mathlib

set_option maxRecDepth 4000

/-!
Shallow embedding of the Zoom-server admission-control, batching and
worker-lifecycle scheduler (`src/controllers/meetingController.ts`,
`src/utils/SystemMoniter.ts`, `src/utils/workerManager.ts`), together with
proofs of the behavioural properties stated about it.

Conventions: machine numbers that the source treats as JS numbers are
embedded as `ℕ`, `ℤ` or `ℚ` (all id / count / millisecond arithmetic in the
source stays within exact integer range); `Map` objects become association
lists; asynchronous event handlers become explicit state-transformer
functions that also record an ordered effect trace.
-/

namespace Zoom

/-- A bot identity (`Bot` in `types.d.ts`): numeric id plus display name. -/
structure Bot where
  id : ℕ
  name : String
deriving DecidableEq, Repr

/-- Line 144 of `meetingController.ts`:
`STRICT_MAX_BOTS_PER_WORKER = Math.min(config.maxBotsPerWorker, 10)`. -/
def strictMaxBotsPerWorker (maxBotsPerWorker : ℕ) : ℕ :=
  min maxBotsPerWorker 10

/-- The slicing loop of lines 147-151: consecutive slices of at most `k`
bots, in order.  Faithful for `k ≥ 1` (the source loop `i += k` would not
terminate at `k = 0`; here that case returns `[]`). -/
def botBatches (bots : List Bot) (k : ℕ) : List (List Bot) :=
  if h : bots = [] ∨ k = 0 then []
  else bots.take k :: botBatches (bots.drop k) k
termination_by bots.length
decreasing_by
  push_neg at h
  obtain ⟨h1, h2⟩ := h
  have hpos : 0 < bots.length := List.length_pos.mpr h1
  simp only [List.length_drop]
  omega

/-- The batch-size shape of the slicing loop as a function of the input
length alone (used to settle the deterministic-sizes scenario). -/
def sliceSizes (n k : ℕ) : List ℕ :=
  if h : n = 0 ∨ k = 0 then []
  else min k n :: sliceSizes (n - k) k
termination_by n
decreasing_by
  push_neg at h
  omega

/-- One registry entry (`ActiveWorkerInfo` in `meetingController.ts`,
timer handle elided; only the data the claims touch). -/
structure ActiveWorkerInfo where
  startTime : ℕ
  duration : ℕ
  botCount : ℕ
deriving DecidableEq, Repr

/-- Host readings consumed by `updateSystemMetrics`: the memory-used
fraction `1 - freemem()/totalmem()` and `cpus().length`. -/
structure HostSample where
  memoryUsedFraction : ℚ
  cpuCount : ℕ
deriving DecidableEq

/-- `SystemMetrics` of `meetingController.ts` lines 22-36 (the
`lastChecked` wall-clock field is elided). -/
structure SystemMetrics where
  totalWorkers : ℕ
  totalActiveBots : ℕ
  memoryUsage : ℚ
  cpuLoad : ℚ
deriving DecidableEq

/-- `updateSystemMetrics` (lines 39-47): recompute every metric from the
registry contents and a host sample. -/
def updateSystemMetrics (registry : List (String × ActiveWorkerInfo))
    (host : HostSample) : SystemMetrics :=
  let totalWorkers := registry.length
  { totalWorkers := totalWorkers
    totalActiveBots := (registry.map (fun p => p.2.botCount)).sum
    memoryUsage := host.memoryUsedFraction
    cpuLoad := min 1 ((totalWorkers : ℚ) / ((host.cpuCount : ℚ) * 2)) }

/-- `parseInt(process.env.MAX_SYSTEM_BOTS || '1000')` (line 67). -/
def maxSystemBots (env : Option ℕ) : ℕ := env.getD 1000

/-- `canHandleMoreWorkers` (lines 50-75): recompute metrics, then reject on
high memory, high cpu load, or exceeding the system-wide bot ceiling. -/
def canHandleMoreWorkers (requestedBotCount : ℕ)
    (registry : List (String × ActiveWorkerInfo)) (host : HostSample)
    (env : Option ℕ) : Bool :=
  let m := updateSystemMetrics registry host
  if m.memoryUsage > 0.85 then false
  else if m.cpuLoad > 0.9 then false
  else if m.totalActiveBots + requestedBotCount > maxSystemBots env then false
  else true

/-- `Math.floor(cpuCount * 2 * (1 - systemLoad) * 0.9)` (line 181): the
adaptive concurrency estimate with 10 percent headroom. -/
def availableConcurrency (cpuCount : ℕ) (systemLoad : ℚ) : ℤ :=
  ⌊(cpuCount : ℚ) * 2 * (1 - systemLoad) * 0.9⌋

/-- `MAX_CONCURRENT_WORKERS` (lines 183-187): the admission-gate capacity,
`min(config.maxConcurrentWorkers, max(1, availableConcurrency), tasks.length)`. -/
def maxConcurrentWorkers (cfgMax cpuCount : ℕ) (systemLoad : ℚ)
    (taskCount : ℕ) : ℕ :=
  min cfgMax (min (max 1 (availableConcurrency cpuCount systemLoad)).toNat taskCount)

/-- The `Semaphore` of lines 192-219: a permit counter plus a FIFO list of
queued resolvers.  A queued caller is identified by its arrival tag. -/
structure Semaphore where
  permits : ℕ
  queue : List ℕ
deriving DecidableEq, Repr

/-- `acquire()` (lines 200-209): take a permit when one is free (second
component `true`), otherwise push the caller's resolver at the back of the
queue (`false`: the caller stays suspended). -/
def Semaphore.acquire (s : Semaphore) (tag : ℕ) : Semaphore × Bool :=
  if 0 < s.permits then ({ s with permits := s.permits - 1 }, true)
  else ({ s with queue := s.queue ++ [tag] }, false)

/-- `release()` (lines 211-218): resume the resolver shifted from the front
of the queue (second component `some tag`), or, when nobody waits, return
the permit to the pool. -/
def Semaphore.release (s : Semaphore) : Semaphore × Option ℕ :=
  match s.queue with
  | [] => ({ s with permits := s.permits + 1 }, none)
  | r :: rest => ({ s with queue := rest }, some r)

/-- Whole-gate state: the semaphore plus the tags of the callers currently
holding a permit and a fresh-tag counter (tags record arrival order). -/
structure GateState where
  sem : Semaphore
  holders : List ℕ
  nextTag : ℕ
deriving DecidableEq, Repr

/-- `new Semaphore(MAX_CONCURRENT_WORKERS)` (line 221): full pool, nobody
queued, nobody holding. -/
def GateState.init (capacity : ℕ) : GateState :=
  { sem := { permits := capacity, queue := [] }, holders := [], nextTag := 0 }

/-- One interleaving step of concurrent `acquire` / `release` calls.  An
`acquire` is by a fresh caller; a `release` is by some current holder, and
the resumed waiter (if any) becomes a holder at that instant. -/
inductive GateStep : GateState → GateState → Prop where
  | acquire (s : GateState) :
      GateStep s
        { sem := (s.sem.acquire s.nextTag).1
          holders :=
            if (s.sem.acquire s.nextTag).2 then s.nextTag :: s.holders else s.holders
          nextTag := s.nextTag + 1 }
  | release (s : GateState) (t : ℕ) (ht : t ∈ s.holders) :
      GateStep s
        { sem := s.sem.release.1
          holders :=
            (match s.sem.release.2 with
             | some w => [w]
             | none => []) ++ s.holders.erase t
          nextTag := s.nextTag }

/-- States reachable from the freshly constructed gate by any pattern of
concurrent `acquire()` and `release()` calls. -/
inductive GateReachable (capacity : ℕ) : GateState → Prop where
  | init : GateReachable capacity (GateState.init capacity)
  | step {s s2 : GateState} :
      GateReachable capacity s → GateStep s s2 → GateReachable capacity s2

/-- The inductive invariant of the gate: permits plus holders account for
the whole capacity, the queue is nonempty only when the pool is exhausted,
and the queue lists waiters in strictly increasing arrival order, all of
them already issued. -/
def GateInv (capacity : ℕ) (s : GateState) : Prop :=
  s.holders.length + s.sem.permits = capacity ∧
  (s.sem.queue ≠ [] → s.sem.permits = 0) ∧
  s.sem.queue.Sorted (· < ·) ∧
  (∀ q ∈ s.sem.queue, q < s.nextTag)

/-- `duration = Math.max(1, Math.floor(duration))` applied to the request
field, whose destructuring default is `60` (lines 80 and 100).  `none`
models an omitted field. -/
def effectiveDuration (durationField : Option ℚ) : ℤ :=
  max 1 ⌊durationField.getD 60⌋

/-- `exp = iat + duration * 60` in `signature.ts` (line 15): signature
expiry epoch-seconds for a given issued-at time and duration in minutes. -/
def signatureExpiry (iat durationMinutes : ℤ) : ℤ :=
  iat + durationMinutes * 60

/-- The duration-derived quantities of one `joinMeeting` call. -/
structure JoinPreparation where
  durationMinutes : ℤ
  taskDurationMs : ℤ
  terminationDelayMs : ℤ
  signatureDurationArg : ℤ
  signatureExp : ℤ
  tabsWillCloseAt : ℤ
deriving DecidableEq, Repr

/-- The straight-line duration pipeline of `joinMeeting`: normalisation
(line 100), the signature call (line 135 feeding `signature.ts` line 15),
the per-task `duration` field (line 169), the termination-timer delay
(lines 226 and 250) and the reported close time (line 427). -/
def prepareJoin (durationField : Option ℚ) (iat now : ℤ) : JoinPreparation :=
  let duration := max 1 ⌊durationField.getD 60⌋
  { durationMinutes := duration
    taskDurationMs := duration * 60 * 1000
    terminationDelayMs := duration * 60 * 1000
    signatureDurationArg := duration
    signatureExp := signatureExpiry iat duration
    tabsWillCloseAt := now + duration * 60 * 1000 }

/-- One dispatched batch (`Task` of `types.d.ts`, limited to the fields the
verified properties touch; the remaining fields are constant flags). -/
structure Task where
  botPair : List Bot
  meetingId : String
  password : String
  browserType : String
  durationMs : ℤ
deriving DecidableEq, Repr

/-- Lines 154-170: one `Task` per batch, all sharing the request data,
`browserType = 'chromium'` (line 138) and `duration * 60 * 1000` ms. -/
def makeTasks (batches : List (List Bot)) (meetingId password : String)
    (durationMs : ℤ) : List Task :=
  batches.map fun batch =>
    { botPair := batch
      meetingId := meetingId
      password := password
      browserType := "chromium"
      durationMs := durationMs }

/-- One per-bot outcome (`WorkerResult`), with the optional fields the
error / timeout paths leave unset modelled as `none` / `false`. -/
structure WorkerResult where
  botId : ℕ
  success : Bool
  error : Option String
  browser : String
  keepOpenOnTimeout : Bool
  scheduledTermination : Option ℤ
deriving DecidableEq, Repr

/-- Ordered observable effects of one batch's event handlers. -/
inductive BatchEffect where
  | clearStartupTimer
  | clearTerminationTimer
  | removeHandle (taskId : String)
  | recomputeMetrics
  | releasePermit
  | resolveBatch (results : List WorkerResult)
deriving DecidableEq, Repr

/-- Mutable state one batch's handlers act on: the global registry, the
armed/cleared state of this batch's duration timer, whether this batch
still holds its gate permit, the batch promise's resolution, and the
ordered effect trace. -/
structure BatchState where
  registry : List (String × ActiveWorkerInfo)
  terminationTimerArmed : Bool
  permitHeld : Bool
  resolved : Option (List WorkerResult)
  effects : List BatchEffect
deriving DecidableEq, Repr

/-- The `worker.on('message', ...)` handler (lines 298-317): clear the
startup-report timeout, rewrite every reported outcome to
`success: true, keepOpenOnTimeout: true` with a scheduled termination
time, release the gate permit, and resolve.  The registry and the
duration termination timer are not touched. -/
def onWorkerMessage (duration now : ℤ) (raw : List WorkerResult)
    (s : BatchState) : BatchState :=
  let s1 := { s with effects := s.effects ++ [BatchEffect.clearStartupTimer] }
  let processed := raw.map fun r =>
    { r with
      success := true
      keepOpenOnTimeout := true
      scheduledTermination := some (now + duration * 60 * 1000)
      error := if r.error.isSome then some "Browser tab kept open" else none }
  let s2 := { s1 with
    permitHeld := false
    effects := s1.effects ++ [BatchEffect.releasePermit] }
  { s2 with
    resolved := some processed
    effects := s2.effects ++ [BatchEffect.resolveBatch processed] }

/-- The `worker.on('error', ...)` handler (lines 319-341): clear the
startup-report timeout, clear the termination timer and delete the handle
when it is registered, recompute metrics, release the permit, and resolve
every bot of the batch as a failure carrying the worker's message. -/
def onWorkerError (task : Task) (taskId msg : String)
    (s : BatchState) : BatchState :=
  let s1 := { s with effects := s.effects ++ [BatchEffect.clearStartupTimer] }
  let s2 :=
    if s1.registry.any (fun p => p.1 == taskId) then
      { s1 with
        terminationTimerArmed := false
        registry := s1.registry.filter (fun p => !(p.1 == taskId))
        effects := s1.effects ++
          [BatchEffect.clearTerminationTimer, BatchEffect.removeHandle taskId] }
    else s1
  let s3 := { s2 with effects := s2.effects ++ [BatchEffect.recomputeMetrics] }
  let failures := task.botPair.map fun bot =>
    { botId := bot.id
      success := false
      error := some ("Worker error: " ++ msg)
      browser := task.browserType
      keepOpenOnTimeout := false
      scheduledTermination := none }
  let s4 := { s3 with
    permitHeld := false
    effects := s3.effects ++ [BatchEffect.releasePermit] }
  { s4 with
    resolved := some failures
    effects := s4.effects ++ [BatchEffect.resolveBatch failures] }

/-- The startup-report timeout callback (lines 370-381): release the
permit and resolve every bot as a successful, held-open session.  The
registry and the termination timer are not touched. -/
def onStartupTimeout (task : Task) (duration now : ℤ)
    (s : BatchState) : BatchState :=
  let synthesized := task.botPair.map fun bot =>
    { botId := bot.id
      success := true
      error := some "Main process timeout but browser tabs kept open"
      browser := task.browserType
      keepOpenOnTimeout := true
      scheduledTermination := some (now + duration * 60 * 1000) }
  let s1 := { s with
    permitHeld := false
    effects := s.effects ++ [BatchEffect.releasePermit] }
  { s1 with
    resolved := some synthesized
    effects := s1.effects ++ [BatchEffect.resolveBatch synthesized] }

/-- The aggregated response fields the error-handling claims talk about
(lines 405-458): the top-level `success` flag, the 200/207 HTTP status,
the enumerated failures and the per-result kept-open-tab labels. -/
structure JoinResponse where
  success : Bool
  httpStatus : ℕ
  failures : List WorkerResult
  keptOpenTabs : List String
deriving DecidableEq, Repr

/-- Response construction from the flattened result list: line 411
(`keptOpenTabs`), line 416 (`successes`), line 417 (`failures`), line 424
(`success: successes > 0`) and line 458 (status `207` when any failure,
else `200`). -/
def buildResponse (results : List WorkerResult) : JoinResponse :=
  let successes := (results.filter (fun r => r.success)).length
  let failures := results.filter (fun r => !r.success)
  { success := decide (0 < successes)
    httpStatus := if 0 < failures.length then 207 else 200
    failures := failures
    keptOpenTabs := results.map fun r => r.browser ++ "-" ++ toString r.botId }

/-- `Map.set` on an association list: overwrite in place when the key is
present, otherwise append (JS `Map` keeps insertion order). -/
def mapSet {α : Type} (m : List (String × α)) (k : String) (v : α) :
    List (String × α) :=
  if m.any (fun p => p.1 == k) then
    m.map fun p => if p.1 == k then (k, v) else p
  else m ++ [(k, v)]

/-- `Map.delete` on an association list. -/
def mapDelete {α : Type} (m : List (String × α)) (k : String) :
    List (String × α) :=
  m.filter fun p => !(p.1 == k)

/-- The monitor-visible shared state: the global registry plus the mutable
`systemMetrics` record. -/
structure MonitorState where
  registry : List (String × ActiveWorkerInfo)
  metrics : SystemMetrics
deriving DecidableEq

/-- Admission insert (lines 284-293): register the handle, then call
`updateSystemMetrics()`. -/
def opAdmit (host : HostSample) (taskId : String) (info : ActiveWorkerInfo)
    (s : MonitorState) : MonitorState :=
  let registry := mapSet s.registry taskId info
  { registry := registry, metrics := updateSystemMetrics registry host }

/-- Worker error removal (lines 319-331): delete the handle when present,
then call `updateSystemMetrics()` unconditionally. -/
def opErrorRemove (host : HostSample) (taskId : String)
    (s : MonitorState) : MonitorState :=
  let registry :=
    if s.registry.any (fun p => p.1 == taskId) then mapDelete s.registry taskId
    else s.registry
  { registry := registry, metrics := updateSystemMetrics registry host }

/-- Abnormal-exit removal (lines 343-356): same shape as the error path. -/
def opExitRemove (host : HostSample) (taskId : String)
    (s : MonitorState) : MonitorState :=
  opErrorRemove host taskId s

/-- Duration-timer force termination (lines 238-245): when the handle is
still registered, delete it and call `updateSystemMetrics()`. -/
def opDurationExpire (host : HostSample) (taskId : String)
    (s : MonitorState) : MonitorState :=
  if s.registry.any (fun p => p.1 == taskId) then
    let registry := mapDelete s.registry taskId
    { registry := registry, metrics := updateSystemMetrics registry host }
  else s

/-- `terminateAllWorkers` delayed force termination (lines 521-527): same
guarded delete-then-recompute. -/
def opTerminateAllForce (host : HostSample) (taskId : String)
    (s : MonitorState) : MonitorState :=
  opDurationExpire host taskId s

/-- `gracefulShutdown` force termination (lines 553-563): the handle is
deleted but `updateSystemMetrics()` is NOT called. -/
def opShutdownForce (taskId : String) (s : MonitorState) : MonitorState :=
  if s.registry.any (fun p => p.1 == taskId) then
    { s with registry := mapDelete s.registry taskId }
  else s

/-- `gracefulShutdown` exit-event removal (lines 565-567): the handle is
deleted but `updateSystemMetrics()` is NOT called. -/
def opShutdownExit (taskId : String) (s : MonitorState) : MonitorState :=
  { s with registry := mapDelete s.registry taskId }

/-- The registry/metrics synchronisation invariant the spec states: the
metrics counters equal what the registry currently holds. -/
def metricsInSync (s : MonitorState) : Prop :=
  s.metrics.totalWorkers = s.registry.length ∧
  s.metrics.totalActiveBots = (s.registry.map (fun p => p.2.botCount)).sum

instance (s : MonitorState) : Decidable (metricsInSync s) := by
  unfold metricsInSync
  infer_instance

/-- The force-termination delay hard-coded in `gracefulShutdown`
(line 563): 3000 ms. -/
def shutdownGraceMs : ℕ := 3000

/-- The overall shutdown ceiling raced against (line 581): 10000 ms. -/
def shutdownHardCeilingMs : ℕ := 10000

/-- One worker as seen by shutdown: its registry key, its bot count, and
when (ms after receiving `TERMINATE`) it would exit cooperatively —
`none` if it never exits on its own. -/
structure ShutdownWorker where
  taskId : String
  botCount : ℕ
  exitDelay : Option ℕ
deriving DecidableEq, Repr

/-- When one worker's termination promise resolves and its registry entry
is gone (lines 547-573): at its cooperative exit, if that happens before
the force-termination timer; otherwise at the forced termination. -/
def workerSettleMs (w : ShutdownWorker) : ℕ :=
  match w.exitDelay with
  | some t => min t shutdownGraceMs
  | none => shutdownGraceMs

/-- Record of one `gracefulShutdown()` run over the timed model. -/
structure ShutdownRun where
  terminationsRequested : List String
  resolveMs : ℕ
  finalRegistry : List ShutdownWorker
deriving DecidableEq, Repr

/-- `gracefulShutdown` (lines 541-585): every active worker is sent
`TERMINATE` immediately (line 550); the call resolves when all per-worker
promises have settled, raced against the 10 s ceiling (lines 579-582);
a worker remains registered only if it has not settled by then. -/
def gracefulShutdown (workers : List ShutdownWorker) : ShutdownRun :=
  let resolveMs :=
    min shutdownHardCeilingMs ((workers.map workerSettleMs).foldr max 0)
  { terminationsRequested := workers.map fun w => w.taskId
    resolveMs := resolveMs
    finalRegistry := workers.filter fun w => resolveMs < workerSettleMs w }

/-- JS decimal rendering of a natural number, digit by digit; the fuel
argument bounds the recursion and any fuel of at least the number itself
is exact. -/
def natCharsAux : ℕ → ℕ → List Char
  | 0, _ => []
  | fuel + 1, n =>
      if n = 0 then []
      else natCharsAux fuel (n / 10) ++ [Nat.digitChar (n % 10)]

/-- `String(n)` for a natural number (used by the template literal of
line 254 on bot ids), as a character list. -/
def natChars (n : ℕ) : List Char :=
  if n = 0 then ['0'] else natCharsAux n n

/-- Decimal decoding, inverse of `natChars` on its range. -/
def decodeDigits (l : List Char) : ℕ :=
  l.foldl (fun acc c => acc * 10 + (c.toNat - '0'.toNat)) 0

/-- `Array.prototype.flatten('-')` over already-rendered pieces. -/
def dashJoin : List (List Char) → List Char
  | [] => []
  | [s] => s
  | s :: ss => s ++ '-' :: dashJoin ss

/-- Line 254: the registry key of a batch,
`taskId = browserType + '-' + botPair.map(b => b.id).flatten('-')` — the ids
in the batch's (shuffled) order. -/
def taskIdChars (task : Task) : List Char :=
  task.browserType.data ++ '-' :: dashJoin (task.botPair.map fun b => natChars b.id)

/-- Modelled from the spec: the registry key the spec describes, with the
bot ids in ascending sorted order ("derive from browser/engine tag plus
sorted bot ids").  There is no corresponding sorting step in the source;
this definition exists only to compare the spec's wording against
`taskIdChars`. -/
def taskIdSortedSpecChars (task : Task) : List Char :=
  task.browserType.data ++
    '-' :: dashJoin ((((task.botPair.map Bot.id).insertionSort (· ≤ ·)).map natChars))

/-! Supporting lemmas. -/

theorem botBatches_join (l : List Bot) (k : ℕ) (hk : k ≠ 0) :
    (botBatches l k).flatten = l := by
  revert hk
  induction l, k using botBatches.induct with
  | case1 l k h =>
      intro hk
      rcases h with h | h
      · simp [botBatches, h]
      · exact absurd h hk
  | case2 l k h ih =>
      intro hk
      rw [botBatches, dif_neg h]
      simp [ih hk]

theorem botBatches_sizes (l : List Bot) (k : ℕ) :
    (botBatches l k).map List.length = sliceSizes l.length k := by
  induction l, k using botBatches.induct with
  | case1 l k h =>
      rcases h with h | h <;>
        simp [botBatches, sliceSizes, h]
  | case2 l k h ih =>
      push_neg at h
      rw [botBatches, dif_neg (by push_neg; exact h)]
      rw [sliceSizes.eq_def, dif_neg (by push_neg; exact ⟨by simpa using h.1, h.2⟩)]
      simp [ih, Nat.min_comm]

theorem botBatches_mem_le (l : List Bot) (k : ℕ) (b : List Bot)
    (hb : b ∈ botBatches l k) : b.length ≤ k := by
  revert hb
  induction l, k using botBatches.induct with
  | case1 l k h =>
      intro hb
      rw [botBatches, dif_pos h] at hb
      simp at hb
  | case2 l k h ih =>
      intro hb
      rw [botBatches, dif_neg h] at hb
      rcases List.mem_cons.mp hb with hb | hb
      · simpa [hb] using List.length_take_le k l
      · exact ih hb

theorem botBatches_mem_ne_nil (l : List Bot) (k : ℕ) (hk : k ≠ 0)
    (b : List Bot) (hb : b ∈ botBatches l k) : b ≠ [] := by
  revert hk hb
  induction l, k using botBatches.induct with
  | case1 l k h =>
      intro hk hb
      rw [botBatches, dif_pos h] at hb
      simp at hb
  | case2 l k h ih =>
      intro hk hb
      push_neg at h
      rw [botBatches, dif_neg (by push_neg; exact h)] at hb
      rcases List.mem_cons.mp hb with hb | hb
      · subst hb
        have h1 : 0 < l.length := List.length_pos.mpr h.1
        have h2 : 0 < k := Nat.pos_of_ne_zero h.2
        simpa [← List.length_pos, List.length_take] using by omega
      · exact ih hk hb

theorem sliceSizes_25_10 : sliceSizes 25 10 = [10, 10, 5] := by
  rw [sliceSizes.eq_def]
  norm_num
  rw [sliceSizes.eq_def]
  norm_num
  rw [sliceSizes.eq_def]
  norm_num
  rw [sliceSizes.eq_def]
  norm_num

/-! Claim theorems. -/

/-- C2: for every input bot list and maximum batch size
`K = min(maxBotsPerWorker, 10)`, shuffling (an arbitrary permutation) and
slicing produces batches whose sizes sum to exactly the input size, each of
size at most `K`, whose concatenation is a permutation of the input (so
every id keeps its multiplicity, and appears exactly once when the input
ids are distinct); for 25 input bots and `K = 10` the sizes are exactly
`[10, 10, 5]` in that order. -/
theorem batcher_split_spec (bots shuffled : List Bot) (maxBotsPerWorker : ℕ)
    (hperm : shuffled.Perm bots) (hmax : 0 < maxBotsPerWorker) :
    ((botBatches shuffled (strictMaxBotsPerWorker maxBotsPerWorker)).map List.length).sum
        = bots.length ∧
    (∀ b ∈ botBatches shuffled (strictMaxBotsPerWorker maxBotsPerWorker),
        b.length ≤ strictMaxBotsPerWorker maxBotsPerWorker) ∧
    ((botBatches shuffled (strictMaxBotsPerWorker maxBotsPerWorker)).flatten.Perm bots) ∧
    (∀ i : ℕ,
      ((botBatches shuffled (strictMaxBotsPerWorker maxBotsPerWorker)).flatten.map Bot.id).count i
        = (bots.map Bot.id).count i) ∧
    ((bots.map Bot.id).Nodup → ∀ b ∈ bots,
      ((botBatches shuffled (strictMaxBotsPerWorker maxBotsPerWorker)).flatten.map Bot.id).count b.id
        = 1) ∧
    (bots.length = 25 → maxBotsPerWorker = 10 →
      (botBatches shuffled (strictMaxBotsPerWorker maxBotsPerWorker)).map List.length
        = [10, 10, 5]) := by
  have hk : strictMaxBotsPerWorker maxBotsPerWorker ≠ 0 := by
    unfold strictMaxBotsPerWorker
    omega
  have hjoin := botBatches_join shuffled _ hk
  have hpermj :
      (botBatches shuffled (strictMaxBotsPerWorker maxBotsPerWorker)).flatten.Perm bots := by
    rw [hjoin]; exact hperm
  have hcount : ∀ i : ℕ,
      ((botBatches shuffled (strictMaxBotsPerWorker maxBotsPerWorker)).flatten.map Bot.id).count i
        = (bots.map Bot.id).count i :=
    fun i => (hpermj.map Bot.id).count_eq i
  refine ⟨?_, ?_, hpermj, hcount, ?_, ?_⟩
  · rw [← List.length_flatten, hjoin]
    exact hperm.length_eq
  · exact fun b hb => botBatches_mem_le shuffled _ b hb
  · intro hnod b hb
    rw [hcount b.id]
    exact List.count_eq_one_of_mem hnod (List.mem_map_of_mem Bot.id hb)
  · intro h25 h10
    rw [botBatches_sizes, hperm.length_eq, h25, h10]
    exact sliceSizes_25_10

/-- C2 witness: the claim instantiated at 25 concrete bots, identity
shuffle, `maxBotsPerWorker = 10`. -/
theorem batcher_split_spec_witness :
    (((botBatches ((List.range 25).map fun i => { id := i, name := "Bot" })
        (strictMaxBotsPerWorker 10)).map List.length).sum
      = ((List.range 25).map fun i => ({ id := i, name := "Bot" } : Bot)).length) ∧
    (∀ b ∈ botBatches ((List.range 25).map fun i => { id := i, name := "Bot" })
        (strictMaxBotsPerWorker 10), b.length ≤ strictMaxBotsPerWorker 10) ∧
    ((botBatches ((List.range 25).map fun i => { id := i, name := "Bot" })
        (strictMaxBotsPerWorker 10)).flatten.Perm
      ((List.range 25).map fun i => { id := i, name := "Bot" })) ∧
    (∀ i : ℕ,
      ((botBatches ((List.range 25).map fun i => { id := i, name := "Bot" })
          (strictMaxBotsPerWorker 10)).flatten.map Bot.id).count i
        = (((List.range 25).map fun i => ({ id := i, name := "Bot" } : Bot)).map Bot.id).count i) ∧
    ((((List.range 25).map fun i => ({ id := i, name := "Bot" } : Bot)).map Bot.id).Nodup →
      ∀ b ∈ (List.range 25).map fun i => ({ id := i, name := "Bot" } : Bot),
        ((botBatches ((List.range 25).map fun i => { id := i, name := "Bot" })
            (strictMaxBotsPerWorker 10)).flatten.map Bot.id).count b.id = 1) ∧
    ((((List.range 25).map fun i => ({ id := i, name := "Bot" } : Bot)).length = 25) →
      10 = 10 →
      (botBatches ((List.range 25).map fun i => { id := i, name := "Bot" })
          (strictMaxBotsPerWorker 10)).map List.length = [10, 10, 5]) :=
  batcher_split_spec _ _ 10 (List.Perm.refl _) (by norm_num)

/-- C3: `canHandleMoreWorkers(n)` returns false exactly when, on the
freshly recomputed metrics, memory usage exceeds 0.85, or the cpu-load
estimate exceeds 0.9, or the active bots plus the request exceed the
configured ceiling (default 1000); in particular a memory-used fraction of
0.9 forces rejection for every request size. -/
theorem canHandleMoreWorkers_false_iff (requestedBotCount : ℕ)
    (registry : List (String × ActiveWorkerInfo)) (host : HostSample)
    (env : Option ℕ) :
    (canHandleMoreWorkers requestedBotCount registry host env = false ↔
      ((updateSystemMetrics registry host).memoryUsage > 0.85 ∨
       (updateSystemMetrics registry host).cpuLoad > 0.9 ∨
       (updateSystemMetrics registry host).totalActiveBots + requestedBotCount
          > maxSystemBots env)) ∧
    (host.memoryUsedFraction = 0.9 →
      canHandleMoreWorkers requestedBotCount registry host env = false) := by
  constructor
  · unfold canHandleMoreWorkers
    dsimp only
    split_ifs with h1 h2 h3
    · simp [h1]
    · simp [h2]
    · simp [h3]
    · simp [h1, h2, h3]
  · intro hm
    have h : (updateSystemMetrics registry host).memoryUsage > 0.85 := by
      simp only [updateSystemMetrics, hm]
      norm_num
    unfold canHandleMoreWorkers
    dsimp only
    rw [if_pos h]

/-- C3 witness: a host at 90 percent memory is rejected for a concrete
request of 7 bots on an empty registry. -/
theorem canHandleMoreWorkers_false_iff_witness :
    canHandleMoreWorkers 7 [] { memoryUsedFraction := 0.9, cpuCount := 4 } none
      = false :=
  (canHandleMoreWorkers_false_iff 7 []
      { memoryUsedFraction := 0.9, cpuCount := 4 } none).2 rfl

/-- C10: an omitted duration field defaults to 60 minutes; a provided
duration is floored to an integer and then raised to a minimum of 1;
the normalised value (and nothing else) feeds the per-task duration, the
termination-timer delay, the signature duration and expiry, and the
reported tabs-close time. -/
theorem duration_default_and_clamp (d : ℚ) (iat now : ℤ)
    (batches : List (List Bot)) (meetingId password : String) :
    effectiveDuration none = 60 ∧
    (prepareJoin none iat now).durationMinutes = 60 ∧
    (prepareJoin (some d) iat now).durationMinutes = max 1 ⌊d⌋ ∧
    1 ≤ (prepareJoin (some d) iat now).durationMinutes ∧
    (∀ df : Option ℚ,
      (prepareJoin df iat now).durationMinutes = effectiveDuration df ∧
      (prepareJoin df iat now).taskDurationMs = effectiveDuration df * 60 * 1000 ∧
      (prepareJoin df iat now).terminationDelayMs = effectiveDuration df * 60 * 1000 ∧
      (prepareJoin df iat now).signatureDurationArg = effectiveDuration df ∧
      (prepareJoin df iat now).signatureExp = signatureExpiry iat (effectiveDuration df) ∧
      (prepareJoin df iat now).tabsWillCloseAt = now + effectiveDuration df * 60 * 1000) ∧
    (∀ t ∈ makeTasks batches meetingId password (prepareJoin (some d) iat now).taskDurationMs,
      t.durationMs = effectiveDuration (some d) * 60 * 1000) := by
  refine ⟨?_, ?_, rfl, le_max_left 1 _, ?_, ?_⟩
  · unfold effectiveDuration
    norm_num
  · unfold prepareJoin
    norm_num
  · intro df
    exact ⟨rfl, rfl, rfl, rfl, rfl, rfl⟩
  · intro t ht
    unfold makeTasks at ht
    obtain ⟨batch, _, rfl⟩ := List.mem_map.mp ht
    rfl

/-- C10 witness: a request with `duration = 2.7` and two singleton
batches. -/
theorem duration_default_and_clamp_witness :
    effectiveDuration none = 60 ∧
    (prepareJoin none 1000 5000).durationMinutes = 60 ∧
    (prepareJoin (some 2.7) 1000 5000).durationMinutes = max 1 ⌊(2.7 : ℚ)⌋ ∧
    1 ≤ (prepareJoin (some 2.7) 1000 5000).durationMinutes ∧
    (∀ df : Option ℚ,
      (prepareJoin df 1000 5000).durationMinutes = effectiveDuration df ∧
      (prepareJoin df 1000 5000).taskDurationMs = effectiveDuration df * 60 * 1000 ∧
      (prepareJoin df 1000 5000).terminationDelayMs = effectiveDuration df * 60 * 1000 ∧
      (prepareJoin df 1000 5000).signatureDurationArg = effectiveDuration df ∧
      (prepareJoin df 1000 5000).signatureExp = signatureExpiry 1000 (effectiveDuration df) ∧
      (prepareJoin df 1000 5000).tabsWillCloseAt = 5000 + effectiveDuration df * 60 * 1000) ∧
    (∀ t ∈ makeTasks [[{ id := 1, name := "A" }], [{ id := 2, name := "B" }]] "m" "p"
        (prepareJoin (some 2.7) 1000 5000).taskDurationMs,
      t.durationMs = effectiveDuration (some 2.7) * 60 * 1000) :=
  duration_default_and_clamp 2.7 1000 5000
    [[{ id := 1, name := "A" }], [{ id := 2, name := "B" }]] "m" "p"

/-- C4: when a batch's worker emits an error before reporting results, the
batch resolves to exactly one result per input bot, each a failure whose
message contains the worker's error message; the handle is removed from
the registry immediately, the duration termination timer is cleared, and
the gate permit is released strictly before the batch promise resolves
(hence before the overall request can resolve). -/
theorem worker_error_resolution (task : Task) (taskId msg : String)
    (s : BatchState)
    (hreg : s.registry.any (fun p => p.1 == taskId) = true) :
    ∃ rs : List WorkerResult,
      (onWorkerError task taskId msg s).resolved = some rs ∧
      rs.map WorkerResult.botId = task.botPair.map Bot.id ∧
      (∀ r ∈ rs, r.success = false ∧
        ∃ pre post, r.error = some (pre ++ msg ++ post)) ∧
      (onWorkerError task taskId msg s).registry
        = s.registry.filter (fun p => !(p.1 == taskId)) ∧
      (∀ p ∈ (onWorkerError task taskId msg s).registry, p.1 ≠ taskId) ∧
      (onWorkerError task taskId msg s).terminationTimerArmed = false ∧
      (onWorkerError task taskId msg s).permitHeld = false ∧
      (onWorkerError task taskId msg s).effects
        = s.effects ++
            [BatchEffect.clearStartupTimer, BatchEffect.clearTerminationTimer,
             BatchEffect.removeHandle taskId, BatchEffect.recomputeMetrics,
             BatchEffect.releasePermit, BatchEffect.resolveBatch rs] := by
  refine ⟨task.botPair.map fun bot =>
    { botId := bot.id
      success := false
      error := some ("Worker error: " ++ msg)
      browser := task.browserType
      keepOpenOnTimeout := false
      scheduledTermination := none }, ?_, ?_, ?_, ?_, ?_, ?_, ?_, ?_⟩
  · simp [onWorkerError, hreg]
  · simp [List.map_map]
  · intro r hr
    obtain ⟨bot, _, rfl⟩ := List.mem_map.mp hr
    exact ⟨rfl, "Worker error: ", "", by simp⟩
  · simp [onWorkerError, hreg]
  · intro p hp
    simp only [onWorkerError, hreg, if_true] at hp
    simp only [List.mem_filter] at hp
    simpa using hp.2
  · simp [onWorkerError, hreg]
  · simp [onWorkerError, hreg]
  · simp [onWorkerError, hreg]

/-- C4 witness: a two-bot batch whose worker fails with message
`launch failed`, starting from a state that registered the handle. -/
theorem worker_error_resolution_witness :
    ∃ rs : List WorkerResult,
      (onWorkerError
        { botPair := [{ id := 1, name := "A" }, { id := 2, name := "B" }],
          meetingId := "m", password := "p", browserType := "chromium",
          durationMs := 60000 }
        "chromium-1-2" "launch failed"
        { registry := [("chromium-1-2", { startTime := 0, duration := 1, botCount := 2 })],
          terminationTimerArmed := true, permitHeld := true,
          resolved := none, effects := [] }).resolved = some rs ∧
      rs.map WorkerResult.botId = [1, 2] ∧
      (∀ r ∈ rs, r.success = false ∧
        ∃ pre post, r.error = some (pre ++ "launch failed" ++ post)) ∧
      (onWorkerError
        { botPair := [{ id := 1, name := "A" }, { id := 2, name := "B" }],
          meetingId := "m", password := "p", browserType := "chromium",
          durationMs := 60000 }
        "chromium-1-2" "launch failed"
        { registry := [("chromium-1-2", { startTime := 0, duration := 1, botCount := 2 })],
          terminationTimerArmed := true, permitHeld := true,
          resolved := none, effects := [] }).registry = [] ∧
      (onWorkerError
        { botPair := [{ id := 1, name := "A" }, { id := 2, name := "B" }],
          meetingId := "m", password := "p", browserType := "chromium",
          durationMs := 60000 }
        "chromium-1-2" "launch failed"
        { registry := [("chromium-1-2", { startTime := 0, duration := 1, botCount := 2 })],
          terminationTimerArmed := true, permitHeld := true,
          resolved := none, effects := [] }).terminationTimerArmed = false ∧
      (onWorkerError
        { botPair := [{ id := 1, name := "A" }, { id := 2, name := "B" }],
          meetingId := "m", password := "p", browserType := "chromium",
          durationMs := 60000 }
        "chromium-1-2" "launch failed"
        { registry := [("chromium-1-2", { startTime := 0, duration := 1, botCount := 2 })],
          terminationTimerArmed := true, permitHeld := true,
          resolved := none, effects := [] }).permitHeld = false := by
  obtain ⟨rs, h1, h2, h3, h4, _, h6, h7, _⟩ :=
    worker_error_resolution
      { botPair := [{ id := 1, name := "A" }, { id := 2, name := "B" }],
        meetingId := "m", password := "p", browserType := "chromium",
        durationMs := 60000 }
      "chromium-1-2" "launch failed"
      { registry := [("chromium-1-2", { startTime := 0, duration := 1, botCount := 2 })],
        terminationTimerArmed := true, permitHeld := true,
        resolved := none, effects := [] }
      (by decide)
  exact ⟨rs, h1, by simpa using h2, h3, by simpa using h4, h6, h7⟩

/-- C5: when the worker reports per-bot outcomes, and likewise when the
startup-report timeout fires first, every bot of the batch resolves with
`success = true` and the kept-open flag set, the gate permit is released,
and the handle stays in the registry with its termination timer still
armed. -/
theorem worker_completion_policy (task : Task) (duration now : ℤ)
    (raw : List WorkerResult) (s : BatchState)
    (hraw : raw.map WorkerResult.botId = task.botPair.map Bot.id)
    (harmed : s.terminationTimerArmed = true) :
    (∃ rs : List WorkerResult,
      (onWorkerMessage duration now raw s).resolved = some rs ∧
      rs.map WorkerResult.botId = task.botPair.map Bot.id ∧
      ∀ r ∈ rs, r.success = true ∧ r.keepOpenOnTimeout = true) ∧
    (onWorkerMessage duration now raw s).permitHeld = false ∧
    (onWorkerMessage duration now raw s).registry = s.registry ∧
    (onWorkerMessage duration now raw s).terminationTimerArmed = true ∧
    (∃ rs : List WorkerResult,
      (onStartupTimeout task duration now s).resolved = some rs ∧
      rs.map WorkerResult.botId = task.botPair.map Bot.id ∧
      ∀ r ∈ rs, r.success = true ∧ r.keepOpenOnTimeout = true) ∧
    (onStartupTimeout task duration now s).permitHeld = false ∧
    (onStartupTimeout task duration now s).registry = s.registry ∧
    (onStartupTimeout task duration now s).terminationTimerArmed = true := by
  refine ⟨⟨_, rfl, ?_, ?_⟩, rfl, rfl, harmed, ⟨_, rfl, ?_, ?_⟩, rfl, rfl, harmed⟩
  · rw [List.map_map]
    exact hraw
  · intro r hr
    obtain ⟨r0, _, rfl⟩ := List.mem_map.mp hr
    exact ⟨rfl, rfl⟩
  · simp [List.map_map]
  · intro r hr
    obtain ⟨bot, _, rfl⟩ := List.mem_map.mp hr
    exact ⟨rfl, rfl⟩

/-- C5 witness: a one-bot batch, a matching one-result report, and a state
with the termination timer armed. -/
theorem worker_completion_policy_witness :
    (∃ rs : List WorkerResult,
      (onWorkerMessage 1 0
        [{ botId := 3, success := false, error := some "minor",
           browser := "chromium", keepOpenOnTimeout := false,
           scheduledTermination := none }]
        { registry := [("chromium-3", { startTime := 0, duration := 1, botCount := 1 })],
          terminationTimerArmed := true, permitHeld := true,
          resolved := none, effects := [] }).resolved = some rs ∧
      rs.map WorkerResult.botId = [({ id := 3, name := "C" } : Bot)].map Bot.id ∧
      ∀ r ∈ rs, r.success = true ∧ r.keepOpenOnTimeout = true) ∧
    (onWorkerMessage 1 0
      [{ botId := 3, success := false, error := some "minor",
         browser := "chromium", keepOpenOnTimeout := false,
         scheduledTermination := none }]
      { registry := [("chromium-3", { startTime := 0, duration := 1, botCount := 1 })],
        terminationTimerArmed := true, permitHeld := true,
        resolved := none, effects := [] }).permitHeld = false ∧
    (onStartupTimeout
      { botPair := [{ id := 3, name := "C" }], meetingId := "m", password := "p",
        browserType := "chromium", durationMs := 60000 } 1 0
      { registry := [("chromium-3", { startTime := 0, duration := 1, botCount := 1 })],
        terminationTimerArmed := true, permitHeld := true,
        resolved := none, effects := [] }).terminationTimerArmed = true := by
  obtain ⟨h1, h2, _, _, _, _, _, h8⟩ :=
    worker_completion_policy
      { botPair := [{ id := 3, name := "C" }], meetingId := "m", password := "p",
        browserType := "chromium", durationMs := 60000 } 1 0
      [{ botId := 3, success := false, error := some "minor",
         browser := "chromium", keepOpenOnTimeout := false,
         scheduledTermination := none }]
      { registry := [("chromium-3", { startTime := 0, duration := 1, botCount := 1 })],
        terminationTimerArmed := true, permitHeld := true,
        resolved := none, effects := [] }
      (by decide) rfl
  exact ⟨h1, h2, h8⟩

/-- C8: the aggregated response lists every failing result and labels every
result as a kept-open tab; its HTTP status is always non-fatal (200 or
207), with 207 and a true success flag whenever the outcome is mixed; and
its success flag is false exactly when every batch failed outright. -/
theorem aggregated_response_statuses (batches : List (List WorkerResult))
    (results : List WorkerResult) (hjoin : results = batches.flatten) :
    (buildResponse results).failures = results.filter (fun r => !r.success) ∧
    (buildResponse results).keptOpenTabs.length = results.length ∧
    ((buildResponse results).httpStatus = 200 ∨
      (buildResponse results).httpStatus = 207) ∧
    ((∃ r ∈ results, r.success = true) → (∃ r ∈ results, r.success = false) →
      (buildResponse results).httpStatus = 207 ∧
        (buildResponse results).success = true) ∧
    ((buildResponse results).success = false ↔
      ∀ b ∈ batches, ∀ r ∈ b, r.success = false) := by
  have hsucc : (buildResponse results).success
      = decide (0 < (results.filter (fun r => r.success)).length) := rfl
  refine ⟨rfl, by simp [buildResponse], ?_, ?_, ?_⟩
  · unfold buildResponse
    dsimp only
    split_ifs <;> simp
  · rintro ⟨rs, hrs, hs⟩ ⟨rf, hrf, hf⟩
    constructor
    · unfold buildResponse
      dsimp only
      rw [if_pos]
      exact List.length_pos.mpr
        (List.ne_nil_of_mem (List.mem_filter.mpr ⟨hrf, by simp [hf]⟩))
    · rw [hsucc, decide_eq_true_eq]
      exact List.length_pos.mpr
        (List.ne_nil_of_mem (List.mem_filter.mpr ⟨hrs, hs⟩))
  · rw [hsucc]
    subst hjoin
    simp only [decide_eq_false_iff_not, not_lt, Nat.le_zero,
      List.length_eq_zero, List.filter_eq_nil_iff, List.mem_flatten]
    constructor
    · intro h b hb r hr
      by_contra hne
      exact h r ⟨b, hb, hr⟩ (by simpa using hne)
    · rintro h r ⟨b, hb, hr⟩ hs
      exact absurd (h b hb r hr) (by simp [hs])

/-- C8 witness: one succeeded batch and one failed batch give a 207
partial-success response with a true success flag. -/
theorem aggregated_response_statuses_witness :
    (buildResponse
        [{ botId := 1, success := true, error := none, browser := "chromium",
           keepOpenOnTimeout := true, scheduledTermination := none },
         { botId := 2, success := false, error := some "Worker error: x",
           browser := "chromium", keepOpenOnTimeout := false,
           scheduledTermination := none }]).httpStatus = 207 ∧
    (buildResponse
        [{ botId := 1, success := true, error := none, browser := "chromium",
           keepOpenOnTimeout := true, scheduledTermination := none },
         { botId := 2, success := false, error := some "Worker error: x",
           browser := "chromium", keepOpenOnTimeout := false,
           scheduledTermination := none }]).success = true := by
  have h :=
    aggregated_response_statuses
      [[{ botId := 1, success := true, error := none, browser := "chromium",
          keepOpenOnTimeout := true, scheduledTermination := none }],
       [{ botId := 2, success := false, error := some "Worker error: x",
          browser := "chromium", keepOpenOnTimeout := false,
          scheduledTermination := none }]]
      [{ botId := 1, success := true, error := none, browser := "chromium",
         keepOpenOnTimeout := true, scheduledTermination := none },
       { botId := 2, success := false, error := some "Worker error: x",
         browser := "chromium", keepOpenOnTimeout := false,
         scheduledTermination := none }]
      rfl
  exact h.2.2.2.1 (by simp) (by simp)

/-- C6 counterexample: the exit-event removal inside `gracefulShutdown`
deletes the last handle without recomputing, so `totalActiveBots` stays at
5 over an empty registry. -/
theorem registry_metrics_sync_cex :
    ¬ metricsInSync
        (opShutdownExit "t"
          { registry := [("t", { startTime := 0, duration := 1, botCount := 5 })]
            metrics :=
              updateSystemMetrics
                [("t", { startTime := 0, duration := 1, botCount := 5 })]
                { memoryUsedFraction := 0, cpuCount := 4 } }) := by
  simp [metricsInSync, opShutdownExit, mapDelete, updateSystemMetrics]

/-- C6 (amended): after every registry mutation on the request paths —
admission insert, error removal, abnormal-exit removal, duration-timer
removal (when the handle is still present; otherwise nothing mutates), and
terminate-all force removal — the metrics counters equal the handle count
and bot-count sum of the registry.  The two removals performed by
`gracefulShutdown` mutate the registry while leaving the metrics record
untouched, so the invariant does not extend to the shutdown path. -/
theorem registry_metrics_sync (host : HostSample) (taskId : String)
    (info : ActiveWorkerInfo) (s : MonitorState) :
    metricsInSync (opAdmit host taskId info s) ∧
    metricsInSync (opErrorRemove host taskId s) ∧
    metricsInSync (opExitRemove host taskId s) ∧
    (metricsInSync s → metricsInSync (opDurationExpire host taskId s)) ∧
    (metricsInSync s → metricsInSync (opTerminateAllForce host taskId s)) ∧
    (opShutdownForce taskId s).metrics = s.metrics ∧
    (opShutdownExit taskId s).metrics = s.metrics := by
  have hsync : ∀ (registry : List (String × ActiveWorkerInfo)),
      metricsInSync { registry := registry,
                      metrics := updateSystemMetrics registry host } :=
    fun _ => ⟨rfl, rfl⟩
  refine ⟨hsync _, hsync _, hsync _, ?_, ?_, ?_, rfl⟩
  · intro hs
    unfold opDurationExpire
    split_ifs
    · exact hsync _
    · exact hs
  · intro hs
    unfold opTerminateAllForce opDurationExpire
    split_ifs
    · exact hsync _
    · exact hs
  · unfold opShutdownForce
    split_ifs <;> rfl

/-- C6 witness: a duration-timer removal on a one-handle registry keeps
the metrics in sync. -/
theorem registry_metrics_sync_witness :
    metricsInSync
      (opDurationExpire { memoryUsedFraction := 0, cpuCount := 4 } "t"
        { registry := [("t", { startTime := 0, duration := 1, botCount := 5 })]
          metrics :=
            updateSystemMetrics
              [("t", { startTime := 0, duration := 1, botCount := 5 })]
              { memoryUsedFraction := 0, cpuCount := 4 } }) :=
  (registry_metrics_sync { memoryUsedFraction := 0, cpuCount := 4 } "t"
      { startTime := 0, duration := 1, botCount := 5 } _).2.2.2.1 ⟨rfl, rfl⟩

theorem foldr_max_le {l : List ℕ} {c : ℕ} (h : ∀ x ∈ l, x ≤ c) :
    l.foldr max 0 ≤ c := by
  induction l with
  | nil => exact Nat.zero_le c
  | cons x xs ih =>
      simp only [List.foldr_cons]
      exact max_le (h x (List.mem_cons_self x xs))
        (ih fun y hy => h y (List.mem_cons_of_mem x hy))

theorem le_foldr_max {l : List ℕ} {x : ℕ} (hx : x ∈ l) :
    x ≤ l.foldr max 0 := by
  induction l with
  | nil => cases hx
  | cons y ys ih =>
      rcases List.mem_cons.mp hx with h | h
      · simp [h, le_max_iff]
      · simp only [List.foldr_cons]
        exact le_max_of_le_right (ih h)

/-- C7: `gracefulShutdown()` requests graceful termination of every active
worker, resolves within the fixed 10 s hard ceiling — in fact within the
single 3 s grace period, independent of how many workers are active — and
leaves the active-workers registry empty afterwards. -/
theorem graceful_shutdown_bounded (workers : List ShutdownWorker) :
    (gracefulShutdown workers).terminationsRequested
      = workers.map (fun w => w.taskId) ∧
    (gracefulShutdown workers).resolveMs ≤ shutdownHardCeilingMs ∧
    (gracefulShutdown workers).resolveMs ≤ shutdownGraceMs ∧
    (gracefulShutdown workers).finalRegistry = [] := by
  have hsettle : ∀ w ∈ workers, workerSettleMs w ≤ shutdownGraceMs := by
    intro w _
    unfold workerSettleMs
    cases w.exitDelay with
    | none => exact le_refl _
    | some t => exact min_le_right _ _
  have hres : (gracefulShutdown workers).resolveMs
      = min shutdownHardCeilingMs ((workers.map workerSettleMs).foldr max 0) := rfl
  refine ⟨rfl, min_le_left _ _, ?_, ?_⟩
  · rw [hres]
    exact le_trans (min_le_right _ _)
      (foldr_max_le (by simpa using hsettle))
  · show workers.filter _ = []
    rw [List.filter_eq_nil_iff]
    intro w hw
    have h1 : workerSettleMs w ≤ (workers.map workerSettleMs).foldr max 0 :=
      le_foldr_max (List.mem_map_of_mem workerSettleMs hw)
    have h2 : workerSettleMs w ≤ shutdownHardCeilingMs :=
      le_trans (hsettle w hw) (by norm_num [shutdownGraceMs, shutdownHardCeilingMs])
    simp only [decide_eq_true_eq, not_lt]
    exact le_min h2 h1

theorem digitChar_ne_dash {d : ℕ} (hd : d < 10) : Nat.digitChar d ≠ '-' := by
  interval_cases d <;> decide

theorem digitChar_toNat {d : ℕ} (hd : d < 10) :
    (Nat.digitChar d).toNat - Char.toNat '0' = d := by
  interval_cases d <;> decide

theorem natCharsAux_ne_dash :
    ∀ (fuel n : ℕ), ∀ c ∈ natCharsAux fuel n, c ≠ '-' := by
  intro fuel
  induction fuel with
  | zero => intro n c hc; simp [natCharsAux] at hc
  | succ fuel ih =>
      intro n c hc
      by_cases h0 : n = 0
      · simp [natCharsAux, h0] at hc
      · rw [natCharsAux, if_neg h0] at hc
        rcases List.mem_append.mp hc with h | h
        · exact ih _ c h
        · have : c = Nat.digitChar (n % 10) := by simpa using h
          rw [this]
          exact digitChar_ne_dash (Nat.mod_lt n (by norm_num))

theorem decodeDigits_append (l : List Char) (c : Char) :
    decodeDigits (l ++ [c]) = decodeDigits l * 10 + (c.toNat - Char.toNat '0') := by
  unfold decodeDigits
  rw [List.foldl_append]
  rfl

theorem decode_natCharsAux :
    ∀ (fuel n : ℕ), n ≤ fuel → decodeDigits (natCharsAux fuel n) = n := by
  intro fuel
  induction fuel with
  | zero =>
      intro n hn
      interval_cases n
      simp [natCharsAux, decodeDigits]
  | succ fuel ih =>
      intro n hn
      by_cases h0 : n = 0
      · simp [natCharsAux, h0, decodeDigits]
      · rw [natCharsAux, if_neg h0, decodeDigits_append,
          ih (n / 10) (by omega), digitChar_toNat (Nat.mod_lt n (by norm_num))]
        omega

theorem decode_natChars (n : ℕ) : decodeDigits (natChars n) = n := by
  unfold natChars
  split_ifs with h0
  · subst h0; rfl
  · exact decode_natCharsAux n n (le_refl n)

theorem natChars_injective : Function.Injective natChars := by
  intro a b h
  have ha := decode_natChars a
  rw [h, decode_natChars b] at ha
  exact ha.symm

theorem natChars_ne_nil (n : ℕ) : natChars n ≠ [] := by
  unfold natChars
  split_ifs with h0
  · simp
  · obtain ⟨m, rfl⟩ := Nat.exists_eq_succ_of_ne_zero h0
    rw [natCharsAux, if_neg h0]
    simp

theorem natChars_ne_dash (n : ℕ) : ∀ c ∈ natChars n, c ≠ '-' := by
  intro c hc
  unfold natChars at hc
  split_ifs at hc with h0
  · have : c = '0' := by simpa using hc
    rw [this]; decide
  · exact natCharsAux_ne_dash n n c hc

theorem dashJoin_cons (s : List Char) (ss : List (List Char)) :
    dashJoin (s :: ss)
      = s ++ (if ss.isEmpty then [] else '-' :: dashJoin ss) := by
  cases ss <;> simp [dashJoin]

theorem dashFree_append_cancel :
    ∀ (s1 s2 t1 t2 : List Char),
      (∀ c ∈ s1, c ≠ '-') → (∀ c ∈ s2, c ≠ '-') →
      (t1 = [] ∨ ∃ u, t1 = '-' :: u) → (t2 = [] ∨ ∃ u, t2 = '-' :: u) →
      s1 ++ t1 = s2 ++ t2 → s1 = s2 ∧ t1 = t2 := by
  intro s1
  induction s1 with
  | nil =>
      intro s2 t1 t2 h1 h2 ht1 ht2 heq
      cases s2 with
      | nil => exact ⟨rfl, by simpa using heq⟩
      | cons c s2 =>
          exfalso
          rcases ht1 with rfl | ⟨u, rfl⟩
          · simp at heq
          · simp only [List.nil_append, List.cons_append] at heq
            injection heq with hc htl
            exact h2 c (List.mem_cons_self c s2) hc.symm
  | cons c s1 ih =>
      intro s2 t1 t2 h1 h2 ht1 ht2 heq
      cases s2 with
      | nil =>
          exfalso
          rcases ht2 with rfl | ⟨u, rfl⟩
          · simp at heq
          · simp only [List.cons_append, List.nil_append] at heq
            injection heq with hc htl
            exact h1 c (List.mem_cons_self c s1) hc
      | cons c2 s2 =>
          simp only [List.cons_append, List.cons.injEq] at heq
          obtain ⟨hc, htail⟩ := heq
          obtain ⟨hs, ht⟩ := ih s2 t1 t2
            (fun x hx => h1 x (List.mem_cons_of_mem c hx))
            (fun x hx => h2 x (List.mem_cons_of_mem c2 hx)) ht1 ht2 htail
          exact ⟨by rw [hc, hs], ht⟩

theorem dashJoin_inj :
    ∀ (l1 l2 : List (List Char)),
      (∀ s ∈ l1, s ≠ [] ∧ ∀ c ∈ s, c ≠ '-') →
      (∀ s ∈ l2, s ≠ [] ∧ ∀ c ∈ s, c ≠ '-') →
      dashJoin l1 = dashJoin l2 → l1 = l2 := by
  intro l1
  induction l1 with
  | nil =>
      intro l2 h1 h2 heq
      cases l2 with
      | nil => rfl
      | cons s ss =>
          exfalso
          rw [dashJoin_cons] at heq
          have hnil : s = [] := by
            rcases List.append_eq_nil.mp heq.symm with ⟨hs, _⟩
            exact hs
          exact (h2 s (List.mem_cons_self s ss)).1 hnil
  | cons s1 ss1 ih =>
      intro l2 h1 h2 heq
      cases l2 with
      | nil =>
          exfalso
          rw [dashJoin_cons] at heq
          have hnil : s1 = [] := by
            rcases List.append_eq_nil.mp heq with ⟨hs, _⟩
            exact hs
          exact (h1 s1 (List.mem_cons_self s1 ss1)).1 hnil
      | cons s2 ss2 =>
          rw [dashJoin_cons, dashJoin_cons] at heq
          have hshape1 :
              (if ss1.isEmpty then ([] : List Char) else '-' :: dashJoin ss1) = []
                ∨ ∃ u, (if ss1.isEmpty then ([] : List Char) else '-' :: dashJoin ss1)
                    = '-' :: u := by
            cases ss1 <;> simp
          have hshape2 :
              (if ss2.isEmpty then ([] : List Char) else '-' :: dashJoin ss2) = []
                ∨ ∃ u, (if ss2.isEmpty then ([] : List Char) else '-' :: dashJoin ss2)
                    = '-' :: u := by
            cases ss2 <;> simp
          obtain ⟨hs, ht⟩ := dashFree_append_cancel s1 s2 _ _
            (h1 s1 (List.mem_cons_self s1 ss1)).2
            (h2 s2 (List.mem_cons_self s2 ss2)).2 hshape1 hshape2 heq
          subst hs
          cases ss1 with
          | nil =>
              cases ss2 with
              | nil => rfl
              | cons a as => simp at ht
          | cons a as =>
              cases ss2 with
              | nil => simp at ht
              | cons b bs =>
                  simp only [List.isEmpty_cons, if_neg Bool.false_ne_true,
                    List.cons.injEq] at ht
                  have := ih (b :: bs)
                    (fun x hx => h1 x (List.mem_cons_of_mem s1 hx))
                    (fun x hx => h2 x (List.mem_cons_of_mem s1 hx))
                    (by simpa using ht)
                  rw [this]

theorem taskIdChars_ne_of_disjoint (t1 t2 : Task)
    (hb : t1.browserType = t2.browserType)
    (h1 : t1.botPair ≠ [])
    (hdisj : List.Disjoint (t1.botPair.map Bot.id) (t2.botPair.map Bot.id)) :
    taskIdChars t1 ≠ taskIdChars t2 := by
  intro heq
  unfold taskIdChars at heq
  rw [hb] at heq
  have hj : dashJoin (t1.botPair.map fun b => natChars b.id)
      = dashJoin (t2.botPair.map fun b => natChars b.id) := by
    have := List.append_cancel_left heq
    exact List.tail_eq_of_cons_eq this
  have hcond : ∀ (t : Task), ∀ s ∈ t.botPair.map fun b => natChars b.id,
      s ≠ [] ∧ ∀ c ∈ s, c ≠ '-' := by
    intro t s hs
    obtain ⟨bot, _, rfl⟩ := List.mem_map.mp hs
    exact ⟨natChars_ne_nil bot.id, natChars_ne_dash bot.id⟩
  have hlists := dashJoin_inj _ _ (hcond t1) (hcond t2) hj
  have hids : t1.botPair.map Bot.id = t2.botPair.map Bot.id := by
    apply List.map_injective_iff.mpr natChars_injective
    simpa [List.map_map] using hlists
  have hne : t1.botPair.map Bot.id ≠ [] := by simpa using h1
  obtain ⟨a, ha⟩ := List.exists_mem_of_ne_nil _ hne
  exact hdisj ha (hids ▸ ha)

theorem gateInv_step (capacity : ℕ) (s s2 : GateState)
    (hstep : GateStep s s2) (ih : GateInv capacity s) : GateInv capacity s2 := by
  obtain ⟨hcount, hqp, hsort, hbound⟩ := ih
  cases hstep with
  | acquire =>
      by_cases hp : 0 < s.sem.permits
      · have hacq : s.sem.acquire s.nextTag
            = ({ permits := s.sem.permits - 1, queue := s.sem.queue }, true) := by
          simp [Semaphore.acquire, hp]
        rw [hacq]
        show GateInv capacity
          { sem := { permits := s.sem.permits - 1, queue := s.sem.queue },
            holders := s.nextTag :: s.holders, nextTag := s.nextTag + 1 }
        refine ⟨?_, ?_, hsort, ?_⟩
        · simp only [List.length_cons]
          omega
        · intro hq
          have := hqp hq
          omega
        · intro q hq
          show q < s.nextTag + 1
          have := hbound q hq
          omega
      · have hacq : s.sem.acquire s.nextTag
            = ({ permits := s.sem.permits, queue := s.sem.queue ++ [s.nextTag] },
               false) := by
          simp [Semaphore.acquire, hp]
        rw [hacq]
        show GateInv capacity
          { sem := { permits := s.sem.permits,
                     queue := s.sem.queue ++ [s.nextTag] },
            holders := s.holders, nextTag := s.nextTag + 1 }
        refine ⟨hcount, ?_, ?_, ?_⟩
        · intro _
          show s.sem.permits = 0
          omega
        · exact List.pairwise_append.mpr
            ⟨hsort, List.pairwise_singleton _ _,
             fun a ha b hb => by
               have := hbound a ha
               simp only [List.mem_singleton] at hb
               omega⟩
        · intro q hq
          show q < s.nextTag + 1
          rcases List.mem_append.mp hq with h | h
          · have := hbound q h
            omega
          · simp only [List.mem_singleton] at h
            omega
  | release t ht =>
      have hlen : 0 < s.holders.length := List.length_pos_of_mem ht
      have herase : (s.holders.erase t).length = s.holders.length - 1 :=
        List.length_erase_of_mem ht
      rcases hq : s.sem.queue with _ | ⟨w, rest⟩
      · have hrel : s.sem.release
            = ({ permits := s.sem.permits + 1, queue := [] }, none) := by
          simp [Semaphore.release, hq]
        rw [hrel]
        show GateInv capacity
          { sem := { permits := s.sem.permits + 1, queue := [] },
            holders := s.holders.erase t, nextTag := s.nextTag }
        refine ⟨?_, by simp, by simp, by simp⟩
        show (s.holders.erase t).length + (s.sem.permits + 1) = capacity
        rw [herase]
        omega
      · have hp0 : s.sem.permits = 0 := hqp (by rw [hq]; simp)
        have hsort2 := hq ▸ hsort
        have hrel : s.sem.release
            = ({ permits := s.sem.permits, queue := rest }, some w) := by
          simp [Semaphore.release, hq]
        rw [hrel]
        show GateInv capacity
          { sem := { permits := s.sem.permits, queue := rest },
            holders := w :: s.holders.erase t, nextTag := s.nextTag }
        refine ⟨?_, fun _ => hp0, (List.sorted_cons.mp hsort2).2, ?_⟩
        · show (w :: s.holders.erase t).length + s.sem.permits = capacity
          simp only [List.length_cons]
          rw [herase]
          omega
        · intro q hqmem
          exact hbound q (hq ▸ List.mem_cons_of_mem w hqmem)

theorem gate_invariant (capacity : ℕ) (s : GateState)
    (h : GateReachable capacity s) : GateInv capacity s := by
  induction h with
  | init =>
      exact ⟨by simp [GateState.init], by simp [GateState.init],
        by simp [GateState.init], by simp [GateState.init]⟩
  | step hr hstep ih => exact gateInv_step _ _ _ hstep ih

/-- C1: sized to `min(configuredMax, max(1, floor(cpuCount * 2 *
(1 - cpuLoad) * 0.9)), taskCount)`, the admission semaphore never lets
more than that many callers hold a permit at once, under any pattern of
concurrent `acquire()` / `release()` calls; every `release` resumes the
front of the queue — the waiter with minimal arrival tag, the
longest-waiting caller — and returns the permit to the pool exactly when
no caller is waiting. -/
theorem admission_gate_safety (cfgMax cpuCount taskCount : ℕ)
    (systemLoad : ℚ) (s : GateState)
    (h : GateReachable (maxConcurrentWorkers cfgMax cpuCount systemLoad taskCount) s) :
    s.holders.length ≤ maxConcurrentWorkers cfgMax cpuCount systemLoad taskCount ∧
    (∀ w rest, s.sem.queue = w :: rest →
      s.sem.release.2 = some w ∧
      s.sem.release.1.queue = rest ∧
      ∀ q ∈ s.sem.queue, w ≤ q) ∧
    (s.sem.queue = [] →
      s.sem.release.1.permits = s.sem.permits + 1 ∧ s.sem.release.2 = none) := by
  obtain ⟨hcount, hqp, hsort, hbound⟩ :=
    gate_invariant (maxConcurrentWorkers cfgMax cpuCount systemLoad taskCount) s h
  refine ⟨by omega, ?_, ?_⟩
  · intro w rest hq
    have hsort2 := hq ▸ hsort
    refine ⟨by simp [Semaphore.release, hq], by simp [Semaphore.release, hq], ?_⟩
    intro q hqmem
    rw [hq] at hqmem
    rcases List.mem_cons.mp hqmem with rfl | hmem
    · exact le_refl q
    · exact le_of_lt ((List.sorted_cons.mp hsort2).1 q hmem)
  · intro hq
    exact ⟨by simp [Semaphore.release, hq], by simp [Semaphore.release, hq]⟩

/-- C1 witness: the freshly constructed gate for 3 tasks on a 4-core idle
host under the default 50-worker cap. -/
theorem admission_gate_safety_witness :
    (GateState.init (maxConcurrentWorkers 50 4 0 3)).holders.length
        ≤ maxConcurrentWorkers 50 4 0 3 ∧
    (∀ w rest,
      (GateState.init (maxConcurrentWorkers 50 4 0 3)).sem.queue = w :: rest →
      (GateState.init (maxConcurrentWorkers 50 4 0 3)).sem.release.2 = some w ∧
      (GateState.init (maxConcurrentWorkers 50 4 0 3)).sem.release.1.queue = rest ∧
      ∀ q ∈ (GateState.init (maxConcurrentWorkers 50 4 0 3)).sem.queue, w ≤ q) ∧
    ((GateState.init (maxConcurrentWorkers 50 4 0 3)).sem.queue = [] →
      (GateState.init (maxConcurrentWorkers 50 4 0 3)).sem.release.1.permits
          = (GateState.init (maxConcurrentWorkers 50 4 0 3)).sem.permits + 1 ∧
      (GateState.init (maxConcurrentWorkers 50 4 0 3)).sem.release.2 = none) :=
  admission_gate_safety 50 4 3 0 _ GateReachable.init

/-- C9 counterexample: a batch holding bots with ids (2, 1) in that order
gets the key `chromium-2-1` (batch order), not the `chromium-1-2` that
deriving from sorted bot ids would give. -/
theorem task_id_not_sorted_cex :
    taskIdChars
        { botPair := [{ id := 2, name := "B" }, { id := 1, name := "A" }],
          meetingId := "m", password := "p", browserType := "chromium",
          durationMs := 60000 }
      ≠ taskIdSortedSpecChars
        { botPair := [{ id := 2, name := "B" }, { id := 1, name := "A" }],
          meetingId := "m", password := "p", browserType := "chromium",
          durationMs := 60000 } := by
  decide

/-- C9 (amended): the registry key is derived from the browser tag plus
the batch's bot ids in batch (shuffled) order — the source performs no
sort — and any two distinct in-flight batches produced for one request
with duplicate-free bot ids still get distinct keys. -/
theorem task_ids_distinct (shuffled : List Bot) (maxBotsPerWorker : ℕ)
    (meetingId password : String) (durationMs : ℤ)
    (hmax : 0 < maxBotsPerWorker) (hnod : (shuffled.map Bot.id).Nodup)
    (t1 t2 : Task)
    (ht1 : t1 ∈ makeTasks (botBatches shuffled (strictMaxBotsPerWorker maxBotsPerWorker))
        meetingId password durationMs)
    (ht2 : t2 ∈ makeTasks (botBatches shuffled (strictMaxBotsPerWorker maxBotsPerWorker))
        meetingId password durationMs)
    (hne : t1 ≠ t2) :
    taskIdChars t1 ≠ taskIdChars t2 := by
  have hk : strictMaxBotsPerWorker maxBotsPerWorker ≠ 0 := by
    unfold strictMaxBotsPerWorker
    omega
  obtain ⟨b1, hm1, rfl⟩ := List.mem_map.mp ht1
  obtain ⟨b2, hm2, rfl⟩ := List.mem_map.mp ht2
  have hbne : b1 ≠ b2 := by
    intro hb
    exact hne (by rw [hb])
  have hflat : ((botBatches shuffled (strictMaxBotsPerWorker maxBotsPerWorker)).map
      (List.map Bot.id)).flatten = shuffled.map Bot.id := by
    rw [← List.map_flatten, botBatches_join shuffled _ hk]
  have hpair : ((botBatches shuffled (strictMaxBotsPerWorker maxBotsPerWorker)).map
      (List.map Bot.id)).Pairwise List.Disjoint :=
    (List.nodup_flatten.mp (hflat ▸ hnod)).2
  have hpair2 : (botBatches shuffled (strictMaxBotsPerWorker maxBotsPerWorker)).Pairwise
      (fun x y => List.Disjoint (x.map Bot.id) (y.map Bot.id)) :=
    List.pairwise_map.mp hpair
  have hdisj : List.Disjoint (b1.map Bot.id) (b2.map Bot.id) :=
    List.Pairwise.forall
      (fun x y hxy => List.Disjoint.symm hxy) hpair2 hm1 hm2 hbne
  exact taskIdChars_ne_of_disjoint _ _ rfl
    (by simpa using botBatches_mem_ne_nil shuffled _ hk b1 hm1) hdisj

/-- C9 witness: the two singleton batches of a two-bot request under
batch size 1 get distinct keys. -/
theorem task_ids_distinct_witness :
    taskIdChars
        { botPair := [{ id := 1, name := "A" }], meetingId := "m", password := "p",
          browserType := "chromium", durationMs := 60000 }
      ≠ taskIdChars
        { botPair := [{ id := 2, name := "B" }], meetingId := "m", password := "p",
          browserType := "chromium", durationMs := 60000 } := by
  have hbb : botBatches [{ id := 1, name := "A" }, { id := 2, name := "B" }]
      (strictMaxBotsPerWorker 1)
        = [[{ id := 1, name := "A" }], [{ id := 2, name := "B" }]] := by
    have h1 : strictMaxBotsPerWorker 1 = 1 := rfl
    rw [h1]
    rw [botBatches.eq_def, dif_neg (by simp)]
    norm_num
    rw [botBatches.eq_def, dif_neg (by simp)]
    norm_num
    rw [botBatches.eq_def, dif_pos (by simp)]
  exact task_ids_distinct [{ id := 1, name := "A" }, { id := 2, name := "B" }] 1
    "m" "p" 60000 (by norm_num) (by decide) _ _
    (by rw [hbb]; simp [makeTasks]) (by rw [hbb]; simp [makeTasks]) (by simp)

end Zoom
